import Mathlib

/-!
# Verification of `rigid_body_motion.reference_frames`

A shallow embedding of `src/rigid_body_motion/reference_frames.py` over exact
rational arithmetic.  The module keeps a process-wide registry (a Python dict
mapping names to `ReferenceFrame` objects) and a tree of frames; each frame
stores a parent-relative translation (3-vector) and rotation (quaternion,
`(w, x, y, z)` order).  `get_transform` walks the tree between two frames via
anytree's `Walker` and composes 4x4 homogeneous matrices, inverse matrices on
the way up and direct matrices on the way down.

Python's floats are modelled by `ℚ` (every number any claim touches is exactly
representable), exceptions by `Except String`, and in-place mutation by
explicit state passing of a `World` value (registry plus the list of all
constructed nodes, identified by their index).
-/

namespace RigidBodyMotion

/-- Propositional equality of `Except` values is decidable whenever it is on
both components. -/
instance {ε α : Type} [DecidableEq ε] [DecidableEq α] :
    DecidableEq (Except ε α) := fun x y =>
  match x, y with
  | Except.ok a, Except.ok b =>
    if h : a = b then isTrue (by rw [h]) else isFalse (by simp [h])
  | Except.error e, Except.error f =>
    if h : e = f then isTrue (by rw [h]) else isFalse (by simp [h])
  | Except.ok _, Except.error _ => isFalse (by simp)
  | Except.error _, Except.ok _ => isFalse (by simp)

/-- A 3-vector `(x, y, z)` of exact rationals, modelling a Python 3-tuple of
floats. -/
abbrev Vec3 := ℚ × ℚ × ℚ

/-- A quaternion `(w, x, y, z)` of exact rationals, modelling
`np.quaternion`. -/
abbrev Quat := ℚ × ℚ × ℚ × ℚ

/-- Squared norm of a quaternion (`np.norm` of the `quaternion` package
returns the squared absolute value). -/
def qnorm2 (q : Quat) : ℚ :=
  q.1 ^ 2 + q.2.1 ^ 2 + q.2.2.1 ^ 2 + q.2.2.2 ^ 2

/-- Hamilton product of two quaternions, modelling quaternion multiplication
of the `quaternion` package. -/
def qmul (p q : Quat) : Quat :=
  (p.1 * q.1 - p.2.1 * q.2.1 - p.2.2.1 * q.2.2.1 - p.2.2.2 * q.2.2.2,
   p.1 * q.2.1 + p.2.1 * q.1 + p.2.2.1 * q.2.2.2 - p.2.2.2 * q.2.2.1,
   p.1 * q.2.2.1 - p.2.1 * q.2.2.2 + p.2.2.1 * q.1 + p.2.2.2 * q.2.1,
   p.1 * q.2.2.2 + p.2.1 * q.2.2.1 - p.2.2.1 * q.2.1 + p.2.2.2 * q.1)

/-- Quaternion reciprocal `1 / q` (conjugate divided by the squared norm),
modelling `1 / quaternion(...)` of the `quaternion` package. -/
def qinv (q : Quat) : Quat :=
  let n := qnorm2 q
  (q.1 / n, -q.2.1 / n, -q.2.2.1 / n, -q.2.2.2 / n)

/-- The pure quaternion `(0, v)` with vector part `v`. -/
def quatOfVec (v : Vec3) : Quat := (0, v.1, v.2.1, v.2.2)

/-- Vector (imaginary) part of a quaternion. -/
def vecPart (q : Quat) : Vec3 := (q.2.1, q.2.2.1, q.2.2.2)

/-- Componentwise negation of a 3-vector. -/
def negVec (v : Vec3) : Vec3 := (-v.1, -v.2.1, -v.2.2)

/-- Components of a 3-vector as a function on `Fin 3`. -/
def vecComp (v : Vec3) : Fin 3 → ℚ := fun i =>
  if i.val = 0 then v.1 else if i.val = 1 then v.2.1 else v.2.2

/-- `as_rotation_matrix` of the `quaternion` package: the 3x3 rotation matrix
of a quaternion, each entry divided by the squared norm (so the formula is
exact also for non-normalized quaternions). -/
def as_rotation_matrix (q : Quat) : Matrix (Fin 3) (Fin 3) ℚ :=
  let w := q.1
  let x := q.2.1
  let y := q.2.2.1
  let z := q.2.2.2
  let n := qnorm2 q
  !![1 - 2 * (y ^ 2 + z ^ 2) / n, 2 * (x * y - z * w) / n, 2 * (x * z + y * w) / n;
     2 * (x * y + z * w) / n, 1 - 2 * (x ^ 2 + z ^ 2) / n, 2 * (y * z - x * w) / n;
     2 * (x * z - y * w) / n, 2 * (y * z + x * w) / n, 1 - 2 * (x ^ 2 + y ^ 2) / n]

/-- Exact integer square root via bounded search: the largest `k ≤ n` with
`k * k ≤ n`.  Agrees with `np.sqrt` on perfect squares, which is the only
place the embedded code applies it. -/
def isqrt (n : Nat) : Nat :=
  (((List.range (n + 1)).filter (fun k => k * k ≤ n)).getLast?).getD 0

/-- Exact square root on `ℚ`, taken numerator/denominator-wise; agrees with
`np.sqrt` on squares of rationals. -/
def ratSqrt (x : ℚ) : ℚ :=
  (isqrt x.num.toNat : ℚ) / (isqrt x.den : ℚ)

/-- `from_rotation_matrix` of the `quaternion` package, modelled from its
branch ("Shepperd") construction: pick the largest of the three diagonal
entries and the trace (`np.argmax` takes the first maximum), build the
corresponding unnormalized quaternion, and normalize it. -/
def from_rotation_matrix (m : Matrix (Fin 3) (Fin 3) ℚ) : Quat :=
  let d0 := m 0 0
  let d1 := m 1 1
  let d2 := m 2 2
  let tr := d0 + d1 + d2
  let raw : Quat :=
    if d0 ≥ d1 ∧ d0 ≥ d2 ∧ d0 ≥ tr then
      (m 2 1 - m 1 2, 1 + d0 - d1 - d2, m 0 1 + m 1 0, m 0 2 + m 2 0)
    else if d1 ≥ d2 ∧ d1 ≥ tr then
      (m 0 2 - m 2 0, m 1 0 + m 0 1, 1 + d1 - d0 - d2, m 1 2 + m 2 1)
    else if d2 ≥ tr then
      (m 1 0 - m 0 1, m 2 0 + m 0 2, m 2 1 + m 1 2, 1 + d2 - d0 - d1)
    else
      (1 + tr, m 2 1 - m 1 2, m 0 2 - m 2 0, m 1 0 - m 0 1)
  let s := ratSqrt (qnorm2 raw)
  (raw.1 / s, raw.2.1 / s, raw.2.2.1 / s, raw.2.2.2 / s)

/-- State of a Python attribute: never assigned (reading it raises
`AttributeError`), assigned `None`, or assigned a value. -/
inductive PyAttr (α : Type) where
  | unset
  | pynone
  | val (a : α)
deriving DecidableEq

/-- A `ReferenceFrame` object: the attributes assigned by `__init__`.
`parent` is the index of the parent node (anytree keeps `children` as the
inverse of the `parent` links, so the child lists are derived). -/
structure ReferenceFrame where
  name : String
  register : Bool
  parent : Option Nat
  translation : PyAttr Vec3
  rotation : PyAttr Quat
deriving DecidableEq

/-- The process-wide state: the module-level `_registry` dict (an
insertion-ordered association list with unique keys) together with every
`ReferenceFrame` object constructed so far, identified by its index. -/
structure World where
  registry : List (String × Nat)
  nodes : List ReferenceFrame
deriving DecidableEq

/-- The empty initial state. -/
def emptyWorld : World := ⟨[], []⟩

/-- Keys of the registry dict. -/
def registryKeys (reg : List (String × Nat)) : List String := reg.map Prod.fst

/-- Dict lookup `_registry[name]`. -/
def lookupName (reg : List (String × Nat)) (name : String) : Option Nat :=
  (reg.find? (fun p => p.1 == name)).map Prod.snd

/-- `register_reference_frame`: raises `ValueError` if the name is already a
key of `_registry`, otherwise inserts the frame under its name.  Returns the
updated registry together with the result of the call. -/
def register_reference_frame (reg : List (String × Nat)) (name : String)
    (id : Nat) : List (String × Nat) × Except String Unit :=
  if (registryKeys reg).contains name then
    (reg, Except.error ("Reference frame with name " ++ name ++ " is already registered"))
  else
    (reg ++ [(name, id)], Except.ok ())

/-- `deregister_reference_frame`: raises `ValueError` if the name is not a
key of `_registry`, otherwise pops the entry stored under the name. -/
def deregister_reference_frame (reg : List (String × Nat)) (name : String) :
    List (String × Nat) × Except String Unit :=
  if ¬ (registryKeys reg).contains name then
    (reg, Except.error ("Reference frame with name " ++ name ++ " not found in registry"))
  else
    (reg.eraseP (fun p => p.1 == name), Except.ok ())

/-- The `parent` argument of the constructor: absent, a frame name, or a
frame object (identified by its index). -/
inductive ParentArg where
  | byName (s : String)
  | byFrame (id : Nat)
deriving DecidableEq

/-- Resolution of a string `parent` argument through the registry
(`reference_frames.py` lines 45-50). -/
def resolveParent (reg : List (String × Nat)) :
    Option ParentArg → Except String (Option Nat)
  | none => Except.ok none
  | some (ParentArg.byFrame id) => Except.ok (some id)
  | some (ParentArg.byName s) =>
    match lookupName reg s with
    | some id => Except.ok (some id)
    | none =>
      Except.error ("Parent frame \"" ++ s ++ "\" not found in registry.")

/-- Common tail of `__init__`: the node (with its `parent` attribute already
assigned, which links it into the tree) is appended to the world, then
`register_reference_frame` is called when `self.register` is set
(`reference_frames.py` lines 73-76). -/
def finishInit (w : World) (node : ReferenceFrame) (newId : Nat) :
    World × Except String Nat :=
  if node.register then
    match register_reference_frame w.registry node.name newId with
    | (reg2, Except.ok _) =>
      ({ registry := reg2, nodes := w.nodes ++ [node] }, Except.ok newId)
    | (reg2, Except.error e) =>
      ({ registry := reg2, nodes := w.nodes ++ [node] }, Except.error e)
  else
    ({ w with nodes := w.nodes ++ [node] }, Except.ok newId)

/-- `ReferenceFrame.__init__`.  Returns the state after the call together
with the index of the new object on success, or the raised error.  The new
object is part of the final state even when the constructor raises (Python
does not roll back); its attributes reflect exactly the assignments executed
before the raise.  Note line 71 of the source assigns `self.translation`
(not `self.rotation`) in the rotation branch of a root frame, so a root
frame's `rotation` attribute is never assigned. -/
def refFrameInit (w : World) (name : String) (parent : Option ParentArg)
    (translation : Option Vec3) (rotation : Option Quat) (register : Bool) :
    World × Except String Nat :=
  let newId := w.nodes.length
  match resolveParent w.registry parent with
  | Except.error e =>
    ({ w with nodes := w.nodes ++ [⟨name, register, none, PyAttr.unset, PyAttr.unset⟩] },
     Except.error e)
  | Except.ok (some p) =>
    finishInit w
      ⟨name, register, some p,
       PyAttr.val (translation.getD (0, 0, 0)),
       PyAttr.val (rotation.getD (1, 0, 0, 0))⟩ newId
  | Except.ok none =>
    if translation.isSome then
      ({ w with nodes := w.nodes ++ [⟨name, register, none, PyAttr.unset, PyAttr.unset⟩] },
       Except.error ("translation specificied without parent frame."))
    else if rotation.isSome then
      ({ w with nodes := w.nodes ++ [⟨name, register, none, PyAttr.pynone, PyAttr.unset⟩] },
       Except.error ("rotation specificied without parent frame."))
    else
      finishInit w ⟨name, register, none, PyAttr.pynone, PyAttr.unset⟩ newId

/-- `ReferenceFrame.__del__`: when the frame was constructed with
`register=True` and its name is currently a key of `_registry`, the entry
stored under the name is deregistered; otherwise nothing happens. -/
def frameDel (w : World) (id : Nat) : World :=
  match w.nodes.get? id with
  | none => w
  | some n =>
    if n.register && (registryKeys w.registry).contains n.name then
      { w with registry := (deregister_reference_frame w.registry n.name).1 }
    else
      w

/-- Parent link of the node with the given index. -/
def parentOf (w : World) (id : Nat) : Option Nat :=
  (w.nodes.get? id).bind ReferenceFrame.parent

/-- anytree's derived `children` attribute: the indices whose `parent` link
points at `p`. -/
def childrenOf (w : World) (p : Nat) : List Nat :=
  (List.range w.nodes.length).filter (fun i => parentOf w i == some p)

/-- anytree's `node.path`: the list of nodes from the root down to the node
itself, obtained by following `parent` links.  The recursion is bounded by a
fuel argument; `nodePath` supplies fuel `w.nodes.length`, which is enough for
every world whose parent links decrease (worlds built by the constructor,
where a parent always exists before its children). -/
def ancestorChain (w : World) : Nat → Nat → List Nat
  | 0, id => [id]
  | fuel + 1, id =>
    match parentOf w id with
    | none => [id]
    | some p => ancestorChain w fuel p ++ [id]

/-- `node.path` with the canonical fuel. -/
def nodePath (w : World) (id : Nat) : List Nat :=
  ancestorChain w w.nodes.length id

/-- Length of anytree `Walker.walk`'s `common` list: the zip of the two root
paths, filtered for pointwise identity. -/
def commonLen (s e : List Nat) : Nat :=
  ((s.zip e).filter (fun p => p.1 == p.2)).length

/-- `ReferenceFrame._walk` composed with anytree's `Walker.walk`: raises a
`WalkError` when the two nodes have different roots, otherwise returns the
`up` list (from the start node up to, excluding, the common ancestor) and the
`down` list (from below the common ancestor down to the end node). -/
def walkFrames (w : World) (a b : Nat) : Except String (List Nat × List Nat) :=
  let s := nodePath w a
  let e := nodePath w b
  if s.head? = e.head? then
    Except.ok ((s.drop (commonLen s e)).reverse, e.drop (commonLen s e))
  else
    Except.error ("WalkError: frames are not part of the same tree.")

/-- Write the upper-left 3x3 block of a 4x4 matrix (`mat[:3, :3] = r`). -/
def setRotBlock (m : Matrix (Fin 4) (Fin 4) ℚ) (r : Matrix (Fin 3) (Fin 3) ℚ) :
    Matrix (Fin 4) (Fin 4) ℚ := fun i j =>
  if hi : i.val < 3 then
    if hj : j.val < 3 then r ⟨i.val, hi⟩ ⟨j.val, hj⟩ else m i j
  else m i j

/-- Write the upper part of the last column of a 4x4 matrix
(`mat[:3, 3] = t`). -/
def setTransCol (m : Matrix (Fin 4) (Fin 4) ℚ) (t : Fin 3 → ℚ) :
    Matrix (Fin 4) (Fin 4) ℚ := fun i j =>
  if hi : i.val < 3 then
    if j.val = 3 then t ⟨i.val, hi⟩ else m i j
  else m i j

/-- `ReferenceFrame._get_parent_transform_matrix` on the frame's rotation `q`
and translation `t`: starts from `np.eye(4)`; without `inverse` it writes the
rotation matrix of `q` and the translation column `t`; with `inverse` it
writes the rotation matrix of `1 / q`, then the translation column `t`, then
negates the translation column in place. -/
def get_parent_transform_matrix (q : Quat) (t : Vec3) (inverse : Bool) :
    Matrix (Fin 4) (Fin 4) ℚ :=
  if inverse then
    let m := setRotBlock 1 (as_rotation_matrix (qinv q))
    let m2 := setTransCol m (vecComp t)
    setTransCol m2 (fun i => -(m2 ⟨i.val, by omega⟩ ⟨3, by omega⟩))
  else
    setTransCol (setRotBlock 1 (as_rotation_matrix q)) (vecComp t)

/-- Read a frame's `rotation` and `translation` attributes; a frame missing
either (a root frame) makes `quaternion(*self.rotation)` or the translation
assignment raise. -/
def nodeData (n : ReferenceFrame) : Except String (Quat × Vec3) :=
  match n.rotation, n.translation with
  | PyAttr.val q, PyAttr.val t => Except.ok (q, t)
  | _, _ => Except.error ("AttributeError: frame has no transform")

/-- `rf._get_parent_transform_matrix(inverse=...)` for the node with the
given index. -/
def nodeParentMatrix (w : World) (id : Nat) (inverse : Bool) :
    Except String (Matrix (Fin 4) (Fin 4) ℚ) :=
  match w.nodes.get? id with
  | none => Except.error ("invalid frame")
  | some n =>
    match nodeData n with
    | Except.ok (q, t) => Except.ok (get_parent_transform_matrix q t inverse)
    | Except.error e => Except.error e

/-- The accumulation loops of `get_transform`: left-multiply the running
matrix by each frame's parent-transform matrix in traversal order. -/
def foldMatrices (w : World) (inverse : Bool) :
    List Nat → Matrix (Fin 4) (Fin 4) ℚ → Except String (Matrix (Fin 4) (Fin 4) ℚ)
  | [], m => Except.ok m
  | i :: rest, m =>
    match nodeParentMatrix w i inverse with
    | Except.error e => Except.error e
    | Except.ok mi => foldMatrices w inverse rest (m * mi)

/-- The 4x4 homogeneous matrix accumulated by `get_transform` before the
translation/rotation extraction: identity, then the inverse parent-transform
matrix of each frame of the `up` list, then the direct parent-transform
matrix of each frame of the `down` list. -/
def get_transform_mat (w : World) (fromId toId : Nat) :
    Except String (Matrix (Fin 4) (Fin 4) ℚ) :=
  match walkFrames w fromId toId with
  | Except.error e => Except.error e
  | Except.ok (up, down) =>
    match foldMatrices w true up 1 with
    | Except.error e => Except.error e
    | Except.ok m1 => foldMatrices w false down m1

/-- Upper-left 3x3 block of a 4x4 matrix (`mat[:3, :3]`). -/
def sub3 (m : Matrix (Fin 4) (Fin 4) ℚ) : Matrix (Fin 3) (Fin 3) ℚ :=
  fun i j => m ⟨i.val, by omega⟩ ⟨j.val, by omega⟩

/-- The `(translation, rotation)` pair `get_transform` extracts from the
accumulated homogeneous matrix: the last column's first three entries and the
quaternion of the 3x3 rotation block. -/
def matToTransform (m : Matrix (Fin 4) (Fin 4) ℚ) : Vec3 × Quat :=
  ((m ⟨0, by omega⟩ ⟨3, by omega⟩,
    m ⟨1, by omega⟩ ⟨3, by omega⟩,
    m ⟨2, by omega⟩ ⟨3, by omega⟩),
   from_rotation_matrix (sub3 m))

/-- `ReferenceFrame.get_transform`: walk to the target frame, accumulate the
homogeneous matrices, and return the extracted `(translation, rotation)`
pair. -/
def get_transform (w : World) (fromId toId : Nat) : Except String (Vec3 × Quat) :=
  match get_transform_mat w fromId toId with
  | Except.error e => Except.error e
  | Except.ok m => Except.ok (matToTransform m)

/-- Well-formed constructor arguments: a string parent must be resolvable and
translation/rotation may only be given together with a parent (otherwise the
constructor raises regardless of `register`). -/
def validCtorArgs (w : World) (parent : Option ParentArg)
    (translation : Option Vec3) (rotation : Option Quat) : Prop :=
  match parent with
  | none => translation = none ∧ rotation = none
  | some (ParentArg.byName s) => (lookupName w.registry s).isSome = true
  | some (ParentArg.byFrame _) => True

/-- A root frame object as `__init__` leaves it: `translation` assigned
`None`, `rotation` never assigned. -/
def rootFrame (name : String) (register : Bool) : ReferenceFrame :=
  ⟨name, register, none, PyAttr.pynone, PyAttr.unset⟩

/-- A hand-written world for exercising `__del__`: the registry entry under
the frame's name `"a"` holds index 5, not the index 0 of the frame object
itself. -/
def teardownWorld : World :=
  ⟨[("a", 5), ("b", 7)], [rootFrame "a" true]⟩

/-- A world holding a registered root frame `"world"` and a registered child
frame `"arm"` of it, built through the constructor. -/
def dupAttemptWorld : World :=
  (refFrameInit (refFrameInit emptyWorld "world" none none none true).1
    "arm" (some (ParentArg.byFrame 0)) none none true).1

/-- The attempt to construct a second registered frame under the
already-registered name `"arm"`, as a child of the root. -/
def dupAttempt : World × Except String Nat :=
  refFrameInit dupAttemptWorld "arm" (some (ParentArg.byFrame 0)) none none true

/-- A homogeneous 4x4 rigid-transform matrix as the spec describes it:
rotation block, translation column, and bottom row `(0, 0, 0, 1)`.  A matrix
"represents the rigid transform with rotation `r` and translation `t`" when
it equals `homogeneousMatrix` of the rotation matrix of `r` and `t`. -/
def homogeneousMatrix (r : Matrix (Fin 3) (Fin 3) ℚ) (t : Vec3) :
    Matrix (Fin 4) (Fin 4) ℚ := fun i j =>
  if hi : i.val < 3 then
    if hj : j.val < 3 then r ⟨i.val, hi⟩ ⟨j.val, hj⟩
    else vecComp t ⟨i.val, hi⟩
  else
    if j.val < 3 then 0 else 1

/-- The translation the spec assigns to the inverse of
`(rotation q, translation t)`: `−q⁻¹·t·q`, the translation conjugated by the
inverse rotation and negated.  (Modelled from the spec's words; this is the
spec side of claim C2, to be compared against the matrix the code builds.) -/
def specInverseTranslation (q : Quat) (t : Vec3) : Vec3 :=
  negVec (vecPart (qmul (qmul (qinv q) (quatOfVec t)) q))

/-- The spec's worked example, built through the constructor: a root frame
`"world"` and a frame `"child"` with parent `"world"`, translation
`(1, 0, 0)` and identity rotation, both registered. -/
def exampleWorld : World :=
  (refFrameInit (refFrameInit emptyWorld "world" none none none true).1
    "child" (some (ParentArg.byName "world")) (some (1, 0, 0))
    (some (1, 0, 0, 0)) true).1

/-- Tree well-formedness of a world: every parent link points to an earlier
index.  Worlds built by the constructor satisfy this, since a parent object
always exists before its children; it rules out parent cycles, so the
fuel-bounded path computation is exact.  Stated over `Bool` so a concrete
world can discharge it by evaluation. -/
def parentIndicesDecreaseB (w : World) : Bool :=
  (List.range w.nodes.length).all fun i =>
    match parentOf w i with
    | some p => decide (p < i)
    | none => true

/-- A three-frame chain built through the constructor: root `"base"`, child
`"mid"`, grandchild `"tip"`, all registered with default (identity)
transforms. -/
def chainWorld : World :=
  (refFrameInit
    (refFrameInit
      (refFrameInit emptyWorld "base" none none none true).1
      "mid" (some (ParentArg.byFrame 0)) none none true).1
    "tip" (some (ParentArg.byFrame 1)) none none true).1

/-! ## Helper lemmas -/

/-- `finishInit` always appends exactly the given node to the node list. -/
theorem finishInit_nodes (w : World) (node : ReferenceFrame) (newId : Nat) :
    (finishInit w node newId).1.nodes = w.nodes ++ [node] := by
  unfold finishInit register_reference_frame
  by_cases hr : node.register <;>
    by_cases hc : node.name ∈ registryKeys w.registry <;>
      simp [hr, hc]

/-- `finishInit` with registration off returns the original registry and
succeeds. -/
theorem finishInit_no_register (w : World) (node : ReferenceFrame) (newId : Nat)
    (h : node.register = false) :
    (finishInit w node newId).1.registry = w.registry ∧
      (finishInit w node newId).2 = Except.ok newId := by
  unfold finishInit
  simp [h]

/-- Negating a vector negates each component. -/
theorem vecComp_negVec (t : Vec3) (i : Fin 3) :
    vecComp (negVec t) i = -(vecComp t i) := by
  fin_cases i <;> simp [vecComp, negVec]

/-- The zip-and-filter common-path computation of `Walker.walk` returns the
whole path when both paths coincide. -/
theorem commonLen_self (s : List Nat) : commonLen s s = s.length := by
  induction s with
  | nil => rfl
  | cons a t ih => simpa [commonLen, List.filter_cons] using ih

/-- Walking from a frame to itself yields empty `up` and `down` lists. -/
theorem walkFrames_self (w : World) (id : Nat) :
    walkFrames w id id = Except.ok ([], []) := by
  simp [walkFrames, commonLen_self, List.drop_length]

/-- The 3x3 block of the 4x4 identity is the 3x3 identity. -/
theorem sub3_one : sub3 (1 : Matrix (Fin 4) (Fin 4) ℚ) = 1 := by
  funext i j
  simp [sub3, Matrix.one_apply, Fin.ext_iff]

/-- The reciprocal of the identity quaternion. -/
theorem qinv_one : qinv (1, 0, 0, 0) = (1, 0, 0, 0) := by
  norm_num [qinv, qnorm2]

/-- The rotation matrix of the identity quaternion is the identity. -/
theorem as_rotation_matrix_one : as_rotation_matrix (1, 0, 0, 0) = 1 := by
  funext i j
  fin_cases i <;> fin_cases j <;>
    norm_num [as_rotation_matrix, qnorm2, Matrix.one_apply, Fin.ext_iff]

/-- Bounded-search square root of 16. -/
theorem isqrt_sixteen : isqrt 16 = 4 := by decide

/-- Bounded-search square root of 1. -/
theorem isqrt_one : isqrt 1 = 1 := by decide

/-- Matrix-to-quaternion conversion maps the identity matrix to the identity
quaternion. -/
theorem from_rotation_matrix_one :
    from_rotation_matrix (1 : Matrix (Fin 3) (Fin 3) ℚ) = (1, 0, 0, 0) := by
  have h16 : Int.toNat 16 = 16 := by decide
  norm_num [from_rotation_matrix, Matrix.one_apply, Fin.ext_iff, qnorm2, ratSqrt,
    Rat.num_ofNat, Rat.den_ofNat, h16, isqrt_sixteen, isqrt_one]

/-- The rotation block of the matrix built with `inverse=True` is the
rotation matrix of the reciprocal quaternion. -/
theorem sub3_parentMatrix_inverse (q : Quat) (t : Vec3) :
    sub3 (get_parent_transform_matrix q t true) = as_rotation_matrix (qinv q) := by
  funext i j
  have hi : i.val < 3 := i.isLt
  have hj : j.val < 3 := j.isLt
  have hj3 : ¬(j.val = 3) := by omega
  simp [sub3, get_parent_transform_matrix, setTransCol, setRotBlock, hi, hj, hj3]

/-- A node with a parent link is a valid index. -/
theorem parentOf_lt_length (w : World) (i p : Nat) (h : parentOf w i = some p) :
    i < w.nodes.length := by
  by_contra hni
  have hg : w.nodes.get? i = none := List.get?_eq_none.mpr (by omega)
  simp only [List.get?_eq_getElem?] at hg
  simp [parentOf, hg] at h

/-- The propositional form of `parentIndicesDecreaseB`. -/
theorem parent_lt_of_decreaseB (w : World) (h : parentIndicesDecreaseB w = true) :
    ∀ i p, parentOf w i = some p → p < i := by
  intro i p hp
  have hi : i < w.nodes.length := parentOf_lt_length w i p hp
  have hall := List.all_eq_true.mp h i (List.mem_range.mpr hi)
  rw [hp] at hall
  simpa using hall

/-- With decreasing parent links, the fuel-bounded ancestor chain is
independent of the fuel as soon as the fuel exceeds the index. -/
theorem ancestorChain_stable (w : World)
    (hWF : ∀ i p, parentOf w i = some p → p < i) :
    ∀ id f1 f2, id < f1 → id < f2 →
      ancestorChain w f1 id = ancestorChain w f2 id := by
  intro id
  induction id using Nat.strong_induction_on with
  | _ id ih =>
    intro f1 f2 h1 h2
    obtain ⟨g1, rfl⟩ : ∃ g, f1 = g + 1 := ⟨f1 - 1, by omega⟩
    obtain ⟨g2, rfl⟩ : ∃ g, f2 = g + 1 := ⟨f2 - 1, by omega⟩
    cases hp : parentOf w id with
    | none => simp [ancestorChain, hp]
    | some p =>
      have hpi := hWF id p hp
      simp only [ancestorChain, hp]
      rw [ih p hpi g1 g2 (by omega) (by omega)]

/-- With decreasing parent links, the path of a node is the path of its
parent extended by the node. -/
theorem nodePath_parent (w : World)
    (hWF : ∀ i p, parentOf w i = some p → p < i)
    (id p : Nat) (hid : id < w.nodes.length) (hp : parentOf w id = some p) :
    nodePath w id = nodePath w p ++ [id] := by
  unfold nodePath
  obtain ⟨g, hg⟩ : ∃ g, w.nodes.length = g + 1 := ⟨w.nodes.length - 1, by omega⟩
  rw [hg]
  have hpg : p < g := by
    have := hWF id p hp
    omega
  have hstep : ancestorChain w (g + 1) id = ancestorChain w g p ++ [id] := by
    simp [ancestorChain, hp]
  rw [hstep, ancestorChain_stable w hWF p g (g + 1) hpg (by omega)]

/-- Fuel-bounded ancestor chains are never empty. -/
theorem ancestorChain_ne_nil (w : World) (f id : Nat) :
    ancestorChain w f id ≠ [] := by
  cases f with
  | zero => simp [ancestorChain]
  | succ g =>
    simp only [ancestorChain]
    cases parentOf w id <;> simp

/-- Node paths are never empty. -/
theorem nodePath_ne_nil (w : World) (id : Nat) : nodePath w id ≠ [] :=
  ancestorChain_ne_nil w w.nodes.length id

/-- The zip-and-filter common-path count distributes over a shared prefix. -/
theorem commonLen_append (xs ys zs : List Nat) :
    commonLen (xs ++ ys) (xs ++ zs) = xs.length + commonLen ys zs := by
  induction xs with
  | nil => simp [commonLen]
  | cons a t ih =>
    simp [commonLen, List.filter_cons] at ih ⊢
    omega

/-- The head of an appended list depends only on a nonempty left part. -/
theorem head?_append_eq (l x y : List Nat) (h : l ≠ []) :
    (l ++ x).head? = (l ++ y).head? := by
  cases l with
  | nil => exact absurd rfl h
  | cons a t => rfl

/-- Evaluation of anytree's walk on a two-step chain `a ← b ← c`: walking
from the grandchild to the root gives `up = [c, b]`, from the grandchild to
its parent gives `up = [c]`, and from the parent to the root gives
`up = [b]`; all three `down` lists are empty. -/
theorem walk_chain (w : World) (a b c : Nat)
    (hWF : ∀ i p, parentOf w i = some p → p < i)
    (hc : c < w.nodes.length)
    (hpc : parentOf w c = some b) (hpb : parentOf w b = some a) :
    walkFrames w c a = Except.ok ([c, b], []) ∧
    walkFrames w c b = Except.ok ([c], []) ∧
    walkFrames w b a = Except.ok ([b], []) := by
  have hb : b < w.nodes.length := by
    have := hWF c b hpc
    omega
  have hPc : nodePath w c = nodePath w b ++ [c] := nodePath_parent w hWF c b hc hpc
  have hPb : nodePath w b = nodePath w a ++ [b] := nodePath_parent w hWF b a hb hpb
  have hne : nodePath w a ≠ [] := nodePath_ne_nil w a
  have hne2 : nodePath w a ++ [b] ≠ [] := by simp
  have hPc2 : nodePath w c = nodePath w a ++ [b, c] := by
    rw [hPc, hPb, List.append_assoc]
    rfl
  refine ⟨?_, ?_, ?_⟩
  · have hhead : (nodePath w a ++ [b, c]).head? = (nodePath w a).head? := by
      have := head?_append_eq (nodePath w a) [b, c] [] hne
      simpa using this
    have hcl : commonLen (nodePath w a ++ [b, c]) (nodePath w a) =
        (nodePath w a).length := by
      have := commonLen_append (nodePath w a) [b, c] []
      simpa [commonLen] using this
    simp only [walkFrames, hPc2]
    rw [if_pos hhead, hcl]
    simp [List.drop_left, List.drop_length]
  · have hhead : ((nodePath w a ++ [b]) ++ [c]).head? =
        ((nodePath w a ++ [b]) ++ []).head? :=
      head?_append_eq (nodePath w a ++ [b]) [c] [] hne2
    have hcl : commonLen ((nodePath w a ++ [b]) ++ [c]) (nodePath w a ++ [b]) =
        (nodePath w a ++ [b]).length := by
      have := commonLen_append (nodePath w a ++ [b]) [c] []
      simpa [commonLen] using this
    have hPc3 : nodePath w c = (nodePath w a ++ [b]) ++ [c] := by
      rw [hPc, hPb]
    simp only [walkFrames, hPc3, hPb]
    rw [if_pos (by simp only [List.append_nil] at hhead; exact hhead), hcl]
    simp [List.drop_left, List.drop_length]
  · have hhead : (nodePath w a ++ [b]).head? = (nodePath w a).head? := by
      have := head?_append_eq (nodePath w a) [b] [] hne
      simpa using this
    have hcl : commonLen (nodePath w a ++ [b]) (nodePath w a) =
        (nodePath w a).length := by
      have := commonLen_append (nodePath w a) [b] []
      simpa [commonLen] using this
    simp only [walkFrames, hPb]
    rw [if_pos hhead, hcl]
    simp [List.drop_left, List.drop_length]

/-- Evaluation of the spec's worked example on the embedded code:
`get_transform(child, world)` walks up from the child applying the inverse
matrix, so the returned translation is `(-1, 0, 0)` (with identity
rotation). -/
theorem exampleWorld_transform_eval :
    get_transform exampleWorld 1 0 = Except.ok ((-1, 0, 0), (1, 0, 0, 0)) := by
  have hwalk : walkFrames exampleWorld 1 0 = Except.ok ([1], []) := by decide
  have hnode : nodeParentMatrix exampleWorld 1 true =
      Except.ok (get_parent_transform_matrix (1, 0, 0, 0) (1, 0, 0) true) := rfl
  have hsub : sub3 (get_parent_transform_matrix (1, 0, 0, 0) (1, 0, 0) true) = 1 := by
    rw [sub3_parentMatrix_inverse, qinv_one, as_rotation_matrix_one]
  simp only [get_transform, get_transform_mat, hwalk, foldMatrices, hnode,
    Matrix.one_mul, matToTransform, hsub, from_rotation_matrix_one]
  norm_num [get_parent_transform_matrix, setTransCol, setRotBlock, vecComp]

end RigidBodyMotion

namespace RigidBodyMotion

/-! ## Claims -/

/-- C5: for every registry state and registered name, registering a second
frame under the same name fails with the duplicate-name `ValueError` (the
spec's `DuplicateNameError`), and the registry mapping is unchanged by the
failed attempt. -/
theorem register_duplicate_fails_registry_unchanged
    (reg : List (String × Nat)) (name : String) (id : Nat)
    (h : name ∈ registryKeys reg) :
    register_reference_frame reg name id =
      (reg, Except.error
        ("Reference frame with name " ++ name ++ " is already registered")) := by
  simp [register_reference_frame, h]

/-- Witness for C5 at a concrete registry. -/
theorem register_duplicate_fails_registry_unchanged_witness :
    "world" ∈ registryKeys [("world", 0)] ∧
    register_reference_frame [("world", 0)] "world" 1 =
      ([("world", 0)], Except.error
        ("Reference frame with name world is already registered")) :=
  ⟨by decide,
   register_duplicate_fails_registry_unchanged [("world", 0)] "world" 1 (by decide)⟩

/-- C4 (code bug at line 71 of `reference_frames.py`): constructing a root
frame assigns `None` to `translation`, but the `else` branch of the rotation
check assigns `self.translation = None` a second time instead of
`self.rotation = None`, so the `rotation` attribute is never assigned at all
(reading it raises `AttributeError`) rather than holding `None`. -/
theorem root_frame_rotation_attribute_never_assigned :
    (refFrameInit emptyWorld "world" none none none true).1.nodes.get? 0 =
      some ⟨"world", true, none, PyAttr.pynone, PyAttr.unset⟩ ∧
    (PyAttr.unset : PyAttr Quat) ≠ PyAttr.pynone := by
  constructor
  · rfl
  · decide

/-- C8: when a parent is given, an omitted `translation` defaults to
`(0, 0, 0)` and an omitted `rotation` defaults to the identity quaternion
`(1, 0, 0, 0)`; a supplied value is stored as given.  Stated for both
omitted, only `rotation` omitted, and only `translation` omitted. -/
theorem frame_with_parent_defaults_to_identity
    (w : World) (name : String) (pid : Nat) (reg : Bool) (tv : Vec3) (rv : Quat) :
    ((refFrameInit w name (some (ParentArg.byFrame pid)) none none reg).1.nodes.get?
        w.nodes.length =
      some ⟨name, reg, some pid, PyAttr.val (0, 0, 0), PyAttr.val (1, 0, 0, 0)⟩) ∧
    ((refFrameInit w name (some (ParentArg.byFrame pid)) (some tv) none reg).1.nodes.get?
        w.nodes.length =
      some ⟨name, reg, some pid, PyAttr.val tv, PyAttr.val (1, 0, 0, 0)⟩) ∧
    ((refFrameInit w name (some (ParentArg.byFrame pid)) none (some rv) reg).1.nodes.get?
        w.nodes.length =
      some ⟨name, reg, some pid, PyAttr.val (0, 0, 0), PyAttr.val rv⟩) := by
  refine ⟨?_, ?_, ?_⟩ <;>
    simp [refFrameInit, resolveParent, finishInit_nodes, List.getElem?_concat_length]

/-- After erasing the first entry with a given key from a registry with
`Nodup` keys, looking the key up finds nothing. -/
theorem lookup_eraseP_eq_none (reg : List (String × Nat)) (name : String)
    (hnd : (registryKeys reg).Nodup) (h : name ∈ registryKeys reg) :
    lookupName (reg.eraseP (fun p => p.1 == name)) name = none := by
  obtain ⟨a, ha, hname⟩ : ∃ a ∈ reg, a.1 = name := by
    simpa [registryKeys] using h
  have pa : (fun p : String × Nat => p.1 == name) a = true := by
    simp [hname]
  obtain ⟨a2, l₁, l₂, hl₁, pa2, hsplit, herase⟩ :=
    List.exists_of_eraseP (p := fun p => p.1 == name) ha pa
  have ha2 : a2.1 = name := by simpa using pa2
  have hnotl₂ : ∀ b ∈ l₂, b.1 ≠ name := by
    intro b hb hbn
    rw [hsplit] at hnd
    simp only [registryKeys, List.map_append, List.map_cons] at hnd
    have := (List.nodup_append.mp hnd).2.1
    exact (List.nodup_cons.mp this).1 (ha2 ▸ hbn ▸ List.mem_map_of_mem Prod.fst hb)
  rw [herase]
  simp only [lookupName, Option.map_eq_none', List.find?_eq_none]
  intro x hx
  rcases List.mem_append.mp hx with hx1 | hx2
  · exact fun hc => by simpa using hl₁ x hx1 hc
  · simpa using hnotl₂ x hx2

/-- C9: teardown (`__del__`) of a frame constructed with `register=True`
removes the registry entry stored under the frame's name whenever the name is
a key — the removal is keyed by name only, independently of which frame index
the entry holds — and is a failure-free no-op when the name is absent. -/
theorem frame_del_removes_by_name (w : World) (id : Nat) (n : ReferenceFrame)
    (hn : w.nodes.get? id = some n) (hreg : n.register = true) :
    (n.name ∈ registryKeys w.registry →
      (frameDel w id).registry = w.registry.eraseP (fun p => p.1 == n.name)) ∧
    ((registryKeys w.registry).Nodup → n.name ∈ registryKeys w.registry →
      lookupName (frameDel w id).registry n.name = none) ∧
    (n.name ∉ registryKeys w.registry → frameDel w id = w) := by
  simp only [List.get?_eq_getElem?] at hn
  refine ⟨fun hmem => ?_, fun hnd hmem => ?_, fun hmem => ?_⟩
  · simp [frameDel, hn, hreg, hmem, deregister_reference_frame]
  · rw [show (frameDel w id).registry = w.registry.eraseP (fun p => p.1 == n.name) by
      simp [frameDel, hn, hreg, hmem, deregister_reference_frame]]
    exact lookup_eraseP_eq_none w.registry n.name hnd hmem
  · simp [frameDel, hn, hreg, hmem]

/-- Witness for C9: a world whose registry entry under the frame's name holds
a different index (5) than the frame being torn down (0); the entry is
removed anyway. -/
theorem frame_del_removes_by_name_witness :
    (teardownWorld.nodes.get? 0 = some (rootFrame "a" true)) ∧
    ("a" ∈ registryKeys teardownWorld.registry →
      (frameDel teardownWorld 0).registry =
        teardownWorld.registry.eraseP (fun p => p.1 == "a")) :=
  ⟨by decide,
   (frame_del_removes_by_name teardownWorld 0 (rootFrame "a" true)
      (by decide) (by decide)).1⟩

/-- C3 counterexample: constructing a registered frame under an
already-registered name raises the duplicate-name error and the registry is
unchanged, but the new node (index 2) has already been attached as a child of
its parent (index 0) when the error is raised, because `self.parent = parent`
on line 73 precedes `register_reference_frame(self)` on line 76.  This
refutes the claim that the failed operation leaves the new node unattached. -/
theorem duplicate_registration_leaves_node_attached :
    (dupAttempt.2 =
      Except.error ("Reference frame with name arm is already registered")) ∧
    dupAttempt.1.registry = dupAttemptWorld.registry ∧
    2 ∈ childrenOf dupAttempt.1 0 :=
  ⟨rfl, rfl, by decide⟩

/-- C3 amended: constructing a `ReferenceFrame` with `register=True` under an
already-registered name fails with the duplicate-name error and leaves the
registry unchanged, but the new node has been attached as a child of its
parent and the attachment is not rolled back. -/
theorem init_duplicate_name_registry_unchanged_but_attached
    (w : World) (name : String) (pid : Nat) (t : Option Vec3) (r : Option Quat)
    (h : name ∈ registryKeys w.registry) :
    ((refFrameInit w name (some (ParentArg.byFrame pid)) t r true).1.registry =
      w.registry) ∧
    ((refFrameInit w name (some (ParentArg.byFrame pid)) t r true).2 =
      Except.error
        ("Reference frame with name " ++ name ++ " is already registered")) ∧
    (w.nodes.length ∈
      childrenOf (refFrameInit w name (some (ParentArg.byFrame pid)) t r true).1 pid) := by
  have hmain : refFrameInit w name (some (ParentArg.byFrame pid)) t r true =
      ({ registry := w.registry,
         nodes := w.nodes ++ [⟨name, true, some pid,
           PyAttr.val (t.getD (0, 0, 0)), PyAttr.val (r.getD (1, 0, 0, 0))⟩] },
       Except.error
         ("Reference frame with name " ++ name ++ " is already registered")) := by
    simp [refFrameInit, resolveParent, finishInit, register_reference_frame, h]
  rw [hmain]
  refine ⟨rfl, rfl, ?_⟩
  simp only [childrenOf, List.mem_filter, List.mem_range, List.length_append,
    List.length_singleton, beq_iff_eq]
  exact ⟨by omega, by simp [parentOf, List.getElem?_concat_length]⟩

/-- Witness for the amended C3 at the concrete duplicate-name scenario. -/
theorem init_duplicate_name_registry_unchanged_but_attached_witness :
    "arm" ∈ registryKeys dupAttemptWorld.registry ∧
    ((refFrameInit dupAttemptWorld "arm" (some (ParentArg.byFrame 0)) none none
        true).1.registry = dupAttemptWorld.registry) :=
  ⟨by decide,
   (init_duplicate_name_registry_unchanged_but_attached dupAttemptWorld "arm" 0
      none none (by decide)).1⟩

/-- C6: for every registered frame, `get_transform` from the frame to itself
returns the identity transform: translation `(0, 0, 0)` and rotation
`(1, 0, 0, 0)` (the walk produces empty `up` and `down` lists, so the
accumulated matrix is the identity). -/
theorem get_transform_self_is_identity (w : World) (name : String) (id : Nat)
    (_registered : lookupName w.registry name = some id) :
    get_transform w id id = Except.ok ((0, 0, 0), (1, 0, 0, 0)) := by
  simp only [get_transform, get_transform_mat, walkFrames_self w id, foldMatrices,
    matToTransform, sub3_one, from_rotation_matrix_one]
  norm_num [Matrix.one_apply, Fin.ext_iff]

/-- Witness for C6 at a registered frame of a concrete two-frame world. -/
theorem get_transform_self_is_identity_witness :
    lookupName dupAttemptWorld.registry "arm" = some 1 ∧
    get_transform dupAttemptWorld 1 1 = Except.ok ((0, 0, 0), (1, 0, 0, 0)) :=
  ⟨by decide, get_transform_self_is_identity dupAttemptWorld "arm" 1 (by decide)⟩

/-- C2 counterexample: for the frame with rotation `q = (0, 1, 0, 0)` (a half
turn about the x-axis) and translation `t = (0, 1, 0)`, the matrix built with
`inverse=True` is not the rigid transform with rotation `q⁻¹` and translation
`−q⁻¹·t·q`: the code negates the translation without rotating it (line 102
sets the column to `-t`), and here `−q⁻¹·t·q = (0, 1, 0) ≠ -t = (0, -1, 0)`. -/
theorem inverse_matrix_translation_not_rotated :
    get_parent_transform_matrix (0, 1, 0, 0) (0, 1, 0) true ≠
      homogeneousMatrix (as_rotation_matrix (qinv (0, 1, 0, 0)))
        (specInverseTranslation (0, 1, 0, 0) (0, 1, 0)) := by
  intro h
  have h13 := congrFun (congrFun h ⟨1, by omega⟩) ⟨3, by omega⟩
  norm_num [get_parent_transform_matrix, homogeneousMatrix, setTransCol, setRotBlock,
    specInverseTranslation, qinv, qnorm2, qmul, quatOfVec, vecPart, negVec,
    vecComp] at h13

/-- C2 amended: for every frame with parent-relative rotation `q` and
translation `t`, the 4x4 matrix built with `inverse=True` represents the
rigid transform with rotation `q⁻¹` and translation `−t`: the translation is
negated but not rotated by the inverse rotation. -/
theorem inverse_matrix_is_inverse_rotation_negated_translation (q : Quat) (t : Vec3) :
    get_parent_transform_matrix q t true =
      homogeneousMatrix (as_rotation_matrix (qinv q)) (negVec t) := by
  funext i j
  by_cases hi : i.val < 3
  · by_cases hj : j.val < 3
    · have hj3 : ¬(j.val = 3) := by omega
      simp [get_parent_transform_matrix, homogeneousMatrix, setTransCol, setRotBlock,
        hi, hj, hj3]
    · have hj3 : j.val = 3 := by omega
      simp [get_parent_transform_matrix, homogeneousMatrix, setTransCol, setRotBlock,
        hi, hj, hj3, vecComp_negVec]
  · have hi3 : i.val = 3 := by omega
    have hL : get_parent_transform_matrix q t true i j =
        (1 : Matrix (Fin 4) (Fin 4) ℚ) i j := by
      simp [get_parent_transform_matrix, setTransCol, setRotBlock, hi]
    rw [hL]
    by_cases hj : j.val < 3
    · have hij : i ≠ j := by
        intro e
        rw [e] at hi3
        omega
      simp [homogeneousMatrix, hi, hj, Matrix.one_apply, hij]
    · have hij : i = j := Fin.ext (by omega)
      simp [homogeneousMatrix, hi, hj, Matrix.one_apply, hij]

/-- C1 counterexample: in the spec's worked example (root `world`, child
`child` with translation `(1, 0, 0)` and identity rotation, both registered),
`get_transform(child, world)` does not return translation `(1, 0, 0)` with
identity rotation — the up-walk applies the inverse matrix, so the
translation comes out negated. -/
theorem example_child_to_world_not_claimed_value :
    get_transform exampleWorld 1 0 ≠ Except.ok ((1, 0, 0), (1, 0, 0, 0)) := by
  intro h
  rw [exampleWorld_transform_eval] at h
  simp only [Except.ok.injEq, Prod.mk.injEq] at h
  norm_num at h

/-- C1 amended: in the spec's worked example, `get_transform(child, world)`
returns translation `(-1, 0, 0)` and rotation `(1, 0, 0, 0)`: walking up from
the child to the root applies the inverse of the child's placement, negating
the translation. -/
theorem example_child_to_world_transform :
    get_transform exampleWorld 1 0 = Except.ok ((-1, 0, 0), (1, 0, 0, 0)) :=
  exampleWorld_transform_eval

/-- C7: for frames `A`, `B`, `C` forming a chain (`A` parent of `B`, `B`
parent of `C`) in a well-formed world, the transform `get_transform(C, A)`
equals the composition — matrix multiplication of the homogeneous
representations, as the spec defines composition — of `get_transform(C, B)`
and `get_transform(B, A)`: the accumulated matrix for `C → A` is exactly the
product of the accumulated matrices for `C → B` and `B → A`, and the
returned `(translation, rotation)` pair is extracted from that product.
The equality is exact, which is stronger than the claimed tolerance. -/
theorem chain_transform_composes (w : World) (a b c : Nat)
    (nb nc : ReferenceFrame) (qb qc : Quat) (tb tc : Vec3)
    (hWF : parentIndicesDecreaseB w = true)
    (hc : c < w.nodes.length)
    (hgc : w.nodes.get? c = some nc) (hgb : w.nodes.get? b = some nb)
    (hcb : nc.parent = some b) (hba : nb.parent = some a)
    (hqc : nc.rotation = PyAttr.val qc) (htc : nc.translation = PyAttr.val tc)
    (hqb : nb.rotation = PyAttr.val qb) (htb : nb.translation = PyAttr.val tb)
    (mcb mba : Matrix (Fin 4) (Fin 4) ℚ)
    (hmcb : get_transform_mat w c b = Except.ok mcb)
    (hmba : get_transform_mat w b a = Except.ok mba) :
    get_transform_mat w c a = Except.ok (mcb * mba) ∧
    get_transform w c a = Except.ok (matToTransform (mcb * mba)) := by
  simp only [List.get?_eq_getElem?] at hgc hgb
  have hWFp := parent_lt_of_decreaseB w hWF
  have hpc : parentOf w c = some b := by simp [parentOf, hgc, hcb]
  have hpb : parentOf w b = some a := by simp [parentOf, hgb, hba]
  obtain ⟨hwca, hwcb, hwba⟩ := walk_chain w a b c hWFp hc hpc hpb
  have hMc : nodeParentMatrix w c true =
      Except.ok (get_parent_transform_matrix qc tc true) := by
    simp [nodeParentMatrix, hgc, nodeData, hqc, htc]
  have hMb : nodeParentMatrix w b true =
      Except.ok (get_parent_transform_matrix qb tb true) := by
    simp [nodeParentMatrix, hgb, nodeData, hqb, htb]
  have hca : get_transform_mat w c a =
      Except.ok ((1 * get_parent_transform_matrix qc tc true) *
        get_parent_transform_matrix qb tb true) := by
    simp [get_transform_mat, hwca, foldMatrices, hMc, hMb]
  have hcbv : mcb = 1 * get_parent_transform_matrix qc tc true := by
    have heval : get_transform_mat w c b =
        Except.ok (1 * get_parent_transform_matrix qc tc true) := by
      simp [get_transform_mat, hwcb, foldMatrices, hMc]
    rw [heval] at hmcb
    exact (Except.ok.inj hmcb).symm
  have hbav : mba = 1 * get_parent_transform_matrix qb tb true := by
    have heval : get_transform_mat w b a =
        Except.ok (1 * get_parent_transform_matrix qb tb true) := by
      simp [get_transform_mat, hwba, foldMatrices, hMb]
    rw [heval] at hmba
    exact (Except.ok.inj hmba).symm
  have hprod : mcb * mba = (1 * get_parent_transform_matrix qc tc true) *
      get_parent_transform_matrix qb tb true := by
    rw [hcbv, hbav, Matrix.one_mul, Matrix.one_mul]
  exact ⟨by rw [hca, hprod], by simp [get_transform, hca, hprod]⟩

/-- Witness for C7 on the concrete three-frame chain world. -/
theorem chain_transform_composes_witness :
    get_transform_mat chainWorld 2 0 =
      Except.ok ((1 * get_parent_transform_matrix (1, 0, 0, 0) (0, 0, 0) true) *
        (1 * get_parent_transform_matrix (1, 0, 0, 0) (0, 0, 0) true)) ∧
    get_transform chainWorld 2 0 =
      Except.ok (matToTransform
        ((1 * get_parent_transform_matrix (1, 0, 0, 0) (0, 0, 0) true) *
          (1 * get_parent_transform_matrix (1, 0, 0, 0) (0, 0, 0) true))) := by
  have hm1 : get_transform_mat chainWorld 2 1 =
      Except.ok (1 * get_parent_transform_matrix (1, 0, 0, 0) (0, 0, 0) true) := by
    have hwalk : walkFrames chainWorld 2 1 = Except.ok ([2], []) := by decide
    have hnode : nodeParentMatrix chainWorld 2 true =
        Except.ok (get_parent_transform_matrix (1, 0, 0, 0) (0, 0, 0) true) := rfl
    simp [get_transform_mat, hwalk, foldMatrices, hnode]
  have hm2 : get_transform_mat chainWorld 1 0 =
      Except.ok (1 * get_parent_transform_matrix (1, 0, 0, 0) (0, 0, 0) true) := by
    have hwalk : walkFrames chainWorld 1 0 = Except.ok ([1], []) := by decide
    have hnode : nodeParentMatrix chainWorld 1 true =
        Except.ok (get_parent_transform_matrix (1, 0, 0, 0) (0, 0, 0) true) := rfl
    simp [get_transform_mat, hwalk, foldMatrices, hnode]
  exact chain_transform_composes chainWorld 0 1 2
    ⟨"mid", true, some 0, PyAttr.val (0, 0, 0), PyAttr.val (1, 0, 0, 0)⟩
    ⟨"tip", true, some 1, PyAttr.val (0, 0, 0), PyAttr.val (1, 0, 0, 0)⟩
    (1, 0, 0, 0) (1, 0, 0, 0) (0, 0, 0) (0, 0, 0)
    (by decide) (by decide) (by decide) (by decide)
    rfl rfl rfl rfl rfl rfl _ _ hm1 hm2

/-- C10: a constructor call with `register=False` never mutates the registry
(first conjunct, for arbitrary, even invalid, arguments), and with valid
arguments it succeeds even when the chosen name is already the name of a
registered frame (the name is quantified freely, so in particular it may be
a registered one: uniqueness is enforced only among registered frames). -/
theorem init_without_register_never_mutates_registry (w : World) (name : String)
    (parent : Option ParentArg) (t : Option Vec3) (r : Option Quat) :
    ((refFrameInit w name parent t r false).1.registry = w.registry) ∧
    (validCtorArgs w parent t r →
      (refFrameInit w name parent t r false).2 = Except.ok w.nodes.length) := by
  constructor
  · cases parent with
    | none =>
      cases t <;> cases r <;>
        simp [refFrameInit, resolveParent, finishInit]
    | some pa =>
      cases pa with
      | byFrame id => simp [refFrameInit, resolveParent, finishInit]
      | byName s =>
        cases hl : lookupName w.registry s <;>
          simp [refFrameInit, resolveParent, hl, finishInit]
  · intro hv
    cases parent with
    | none =>
      obtain ⟨ht, hr⟩ := hv
      subst ht hr
      simp [refFrameInit, resolveParent, finishInit]
    | some pa =>
      cases pa with
      | byFrame id => simp [refFrameInit, resolveParent, finishInit]
      | byName s =>
        obtain ⟨id, hl⟩ := Option.isSome_iff_exists.mp hv
        simp [refFrameInit, resolveParent, hl, finishInit]

/-- Witness for C10: an unregistered frame is constructed under a name that
is already registered (as the name of another frame), with that frame as its
parent, and the construction succeeds without touching the registry. -/
theorem init_without_register_never_mutates_registry_witness :
    ((refFrameInit ⟨[("a", 0)], [rootFrame "a" true]⟩
        "a" (some (ParentArg.byName "a")) none none false).1.registry = [("a", 0)]) ∧
    (validCtorArgs ⟨[("a", 0)], [rootFrame "a" true]⟩
        (some (ParentArg.byName "a")) none none →
      (refFrameInit ⟨[("a", 0)], [rootFrame "a" true]⟩
        "a" (some (ParentArg.byName "a")) none none false).2 = Except.ok 1) :=
  init_without_register_never_mutates_registry ⟨[("a", 0)], [rootFrame "a" true]⟩
    "a" (some (ParentArg.byName "a")) none none

end RigidBodyMotion
